import Mathlib

/-!
Shallow embedding of the download subsystem of the exercism command-line
client (`service/download.go`, with the corresponding `cmd` layer), together
with theorems checking the natural-language specification against it.

Modelling conventions:
* Go strings are Lean `String`s; `nil` pointers become `Option`.
* `viper.Viper` user configuration is restricted to the three keys the
  download code reads (`token`, `workspace`, `apibaseurl`), accessed through
  a `getString` that mirrors viper's string-keyed lookup.
* Fallible Go functions returning `(T, error)` become `Except String T`,
  carrying the exact message strings the source produces.
* HTTP traffic is abstracted to the data the code inspects: a status code,
  the result of JSON-decoding the body, and (for file requests) the
  `Content-Length` header and body bytes.
* `filepath` operations are modelled for the forward-slash platform
  (`filepath.FromSlash` is the identity, `filepath.Join` inserts `/`);
  path cleaning is not needed for the component strings that arise here.
-/

/-- User configuration (viper) restricted to the keys the download code reads. -/
structure UserConfig where
  token : String
  workspace : String
  apibaseurl : String
deriving Repr, DecidableEq

/-- Models viper's `GetString` for the recognized keys; unknown keys read `""`. -/
def UserConfig.getString (cfg : UserConfig) (key : String) : String :=
  if key = "token" then cfg.token
  else if key = "workspace" then cfg.workspace
  else if key = "apibaseurl" then cfg.apibaseurl
  else ""

/-- `DownloadParams` from `service/download.go` (a `nil` `usrCfg` is `none`). -/
structure DownloadParams where
  usrCfg : Option UserConfig
  uuid : String
  slug : String
  track : String
  team : String
deriving Repr, DecidableEq

/-- The `for _, cfg := range requiredCfgs` loop body of `DownloadParams.validate`:
returns the error for the first key whose configured value is empty. -/
def requiredCfgsCheck (cfg : UserConfig) : List String → Except String Unit
  | [] => Except.ok ()
  | k :: rest =>
    if cfg.getString k = "" then
      Except.error ("missing required UserViperConfig '" ++ k ++ "'")
    else requiredCfgsCheck cfg rest

/-- `DownloadParams.validate` from `service/download.go` lines 154-175.
Go's `d.slug != "" && d.uuid != "" || d.uuid == d.slug` parses as
`(slug ≠ "" ∧ uuid ≠ "") ∨ uuid = slug` (`&&` binds tighter than `||`). -/
def DownloadParams.validate (d : DownloadParams) : Except String Unit :=
  if (d.slug ≠ "" ∧ d.uuid ≠ "") ∨ d.uuid = d.slug then
    Except.error "need a 'slug' or a 'uuid'"
  else
    match d.usrCfg with
    | none => Except.error "user config is empty"
    | some cfg => requiredCfgsCheck cfg ["token", "workspace", "apibaseurl"]

/-- The identifier guard of `validate` rejects exactly the cases where
{slug, uuid} are not "exactly one non-empty". -/
lemma identifier_guard_iff (slug uuid : String) :
    ¬((slug ≠ "" ∧ uuid ≠ "") ∨ uuid = slug) ↔
      ((slug ≠ "" ∧ uuid = "") ∨ (slug = "" ∧ uuid ≠ "")) := by
  by_cases hs : slug = "" <;> by_cases hu : uuid = "" <;>
    simp [hs, hu, eq_comm]

/-- C1: `DownloadParams` validation succeeds iff exactly one of {slug, uuid}
is non-empty and all of `token`, `workspace`, `apibaseurl` are non-empty in
the user configuration; in every other case it fails with an error. -/
theorem downloadParams_validate_iff (d : DownloadParams) :
    (d.validate = Except.ok () ↔
      (((d.slug ≠ "" ∧ d.uuid = "") ∨ (d.slug = "" ∧ d.uuid ≠ "")) ∧
        ∃ cfg, d.usrCfg = some cfg ∧
          cfg.token ≠ "" ∧ cfg.workspace ≠ "" ∧ cfg.apibaseurl ≠ "")) ∧
    (d.validate = Except.ok () ∨ ∃ e, d.validate = Except.error e) := by
  constructor
  · rcases d with ⟨cfgOpt, uuid, slug, track, team⟩
    rcases cfgOpt with _ | cfg
    · simp only [DownloadParams.validate]
      split <;> simp
    · simp only [DownloadParams.validate]
      by_cases hid : (slug ≠ "" ∧ uuid ≠ "") ∨ uuid = slug
      · rw [if_pos hid]
        simp only [Except.error, reduceCtorEq, false_iff]
        intro hcontra
        exact (identifier_guard_iff slug uuid).mpr hcontra.1 hid
      · rw [if_neg hid]
        have hone := (identifier_guard_iff slug uuid).mp hid
        simp only [requiredCfgsCheck, UserConfig.getString, if_pos rfl]
        by_cases ht : cfg.token = "" <;> by_cases hw : cfg.workspace = "" <;>
          by_cases ha : cfg.apibaseurl = "" <;>
          simp [ht, hw, ha, requiredCfgsCheck, UserConfig.getString, hone]
  · cases h : d.validate with
    | ok v => left; cases v; rfl
    | error e => right; exact ⟨e, rfl⟩

/-- `workspace.Exercise` (external `workspace` package): the fields the
download code reads and constructs. -/
structure Exercise where
  Root : String
  Track : String
  Slug : String
deriving Repr, DecidableEq

/-- `pflag.FlagSet` abstracted to the string-valued lookup the code performs;
failing flag reads (`FlagReadError`) are an external concern not modelled. -/
def FlagSet := String → String

/-- `NewDownloadParamsFromExercise` (service/download.go lines 116-119):
builds params from an exercise's slug and track and returns them together
with the result of `validate`; a validation error is surfaced verbatim. -/
def NewDownloadParamsFromExercise (usrCfg : Option UserConfig) (exercise : Exercise) :
    Except String DownloadParams :=
  let d : DownloadParams :=
    { usrCfg := usrCfg, uuid := "", slug := exercise.Slug, track := exercise.Track, team := "" }
  match d.validate with
  | Except.error e => Except.error e
  | Except.ok _ => Except.ok d

/-- `NewDownloadParamsFromFlags` (service/download.go lines 122-152): reads
`uuid` and `exercise`, runs `validate`, and on any validation failure returns
the fixed message "need an --exercise name or a solution --uuid" (discarding
the underlying validation error); only on success reads `track` and `team`. -/
def NewDownloadParamsFromFlags (usrCfg : Option UserConfig) (flags : FlagSet) :
    Except String DownloadParams :=
  let d : DownloadParams :=
    { usrCfg := usrCfg, uuid := flags "uuid", slug := flags "exercise",
      track := "", team := "" }
  match d.validate with
  | Except.error _ => Except.error "need an --exercise name or a solution --uuid"
  | Except.ok _ => Except.ok { d with track := flags "track", team := flags "team" }

/-- `filepath.Join` on two elements for already-clean components: empty
elements are dropped, the rest joined with `/`; the `Clean` pass, which the
component strings arising here never need, is omitted. -/
def filepathJoin (a b : String) : String :=
  if a = "" then b else if b = "" then a else a ++ "/" ++ b

/-- The nested `Team` struct of the solution payload. -/
structure SolutionTeam where
  Name : String
  Slug : String
deriving Repr, DecidableEq

/-- The nested `User` struct of the solution payload. -/
structure SolutionUser where
  Handle : String
  IsRequester : Bool
deriving Repr, DecidableEq

/-- The nested `Track` struct of the solution payload's exercise. -/
structure SolutionTrack where
  ID : String
  Language : String
deriving Repr, DecidableEq

/-- The nested `Exercise` struct of the solution payload. -/
structure SolutionExercise where
  ID : String
  InstructionsURL : String
  AutoApprove : Bool
  Track : SolutionTrack
deriving Repr, DecidableEq

/-- The `Solution` part of `downloadPayload` (service/download.go lines 324-349). -/
structure SolutionPayload where
  ID : String
  URL : String
  Team : SolutionTeam
  User : SolutionUser
  Exercise : SolutionExercise
  FileDownloadBaseURL : String
  Files : List String
  SubmittedAt : Option String
deriving Repr, DecidableEq

/-- The `Error` part of `downloadPayload` (fields `Type`, `Message`,
`PossibleTrackIDs`); `Type` is a Lean keyword, so the field is `Type'`. -/
structure ErrorPayload where
  Type' : String
  Message : String
  PossibleTrackIDs : List String
deriving Repr, DecidableEq

/-- `downloadPayload` (service/download.go lines 322-355). -/
structure downloadPayload where
  Solution : SolutionPayload
  Error : ErrorPayload
deriving Repr, DecidableEq

/-- `Download` (service/download.go lines 178-181): params plus payload. -/
structure Download where
  params : DownloadParams
  payload : downloadPayload
deriving Repr, DecidableEq

/-- viper `GetString` through a possibly-nil config pointer; the `none` case
is unreachable in the validated flow (Go would panic on a nil viper). -/
def optGetString (cfg : Option UserConfig) (key : String) : String :=
  match cfg with
  | none => ""
  | some c => c.getString key

/-- `Download.Exercise` (service/download.go lines 283-296): workspace root,
plus `teams/<team-slug>` when the team slug is non-empty, plus
`users/<handle>` when the user is not the requester. -/
def Download.exercise (d : Download) : Exercise :=
  let root0 := optGetString d.params.usrCfg "workspace"
  let root1 :=
    if d.payload.Solution.Team.Slug ≠ "" then
      filepathJoin (filepathJoin root0 "teams") d.payload.Solution.Team.Slug
    else root0
  let root2 :=
    if !d.payload.Solution.User.IsRequester then
      filepathJoin (filepathJoin root1 "users") d.payload.Solution.User.Handle
    else root1
  { Root := root2,
    Track := d.payload.Solution.Exercise.Track.ID,
    Slug := d.payload.Solution.Exercise.ID }

/-- The exercise-location formula exactly as the spec states it (§4.3),
written independently with plain string concatenation. -/
def exerciseLocationSpec (workspaceRoot teamSlug handle : String)
    (isRequester : Bool) (trackID exerciseID : String) : Exercise :=
  let root0 :=
    if teamSlug ≠ "" then workspaceRoot ++ "/" ++ "teams" ++ "/" ++ teamSlug
    else workspaceRoot
  let root1 :=
    if isRequester = false then root0 ++ "/" ++ "users" ++ "/" ++ handle
    else root0
  { Root := root1, Track := trackID, Slug := exerciseID }

lemma append_ne_empty_of_left {a : String} (b : String) (h : a ≠ "") : a ++ b ≠ "" := by
  intro hc
  apply h
  apply String.ext
  have hd := congrArg String.data hc
  simp only [String.data_append] at hd
  exact (List.append_eq_nil.mp hd).1

lemma filepathJoin_segment (root seg comp : String) (hr : root ≠ "")
    (hseg : seg ≠ "") (hc : comp ≠ "") :
    filepathJoin (filepathJoin root seg) comp = root ++ "/" ++ seg ++ "/" ++ comp := by
  unfold filepathJoin
  rw [if_neg hr, if_neg hseg, if_neg (append_ne_empty_of_left seg
    (append_ne_empty_of_left "/" hr)), if_neg hc]

lemma UserConfig.getString_token (cfg : UserConfig) : cfg.getString "token" = cfg.token := rfl

lemma UserConfig.getString_workspace (cfg : UserConfig) :
    cfg.getString "workspace" = cfg.workspace := rfl

lemma UserConfig.getString_apibaseurl (cfg : UserConfig) :
    cfg.getString "apibaseurl" = cfg.apibaseurl := rfl

/-- C2: the resolved exercise location is a pure function of team-slug,
requester flag, handle, track, slug and workspace root, matching the spec's
formula: the root gains a `teams/<team-slug>` segment exactly when the team
slug is non-empty and a `users/<handle>` segment exactly when the user is
not the requester, and the result carries the payload's track id and
exercise id. -/
theorem download_exercise_matches_spec (d : Download) (cfg : UserConfig)
    (hcfg : d.params.usrCfg = some cfg) (hws : cfg.workspace ≠ "")
    (hh : d.payload.Solution.User.IsRequester = false →
      d.payload.Solution.User.Handle ≠ "") :
    d.exercise = exerciseLocationSpec cfg.workspace d.payload.Solution.Team.Slug
      d.payload.Solution.User.Handle d.payload.Solution.User.IsRequester
      d.payload.Solution.Exercise.Track.ID d.payload.Solution.Exercise.ID := by
  obtain ⟨params, payload⟩ := d
  obtain ⟨sol, err⟩ := payload
  obtain ⟨sid, surl, ⟨tname, tslug⟩, ⟨handle, isreq⟩, sex, base, files, sub⟩ := sol
  dsimp only at hcfg hh ⊢
  have hget : optGetString params.usrCfg "workspace" = cfg.workspace := by
    rw [hcfg]
    exact UserConfig.getString_workspace cfg
  cases isreq
  · have hhandle := hh rfl
    by_cases ht : tslug = ""
    · simp [Download.exercise, exerciseLocationSpec, hget, ht]
      rw [filepathJoin_segment cfg.workspace "users" handle hws (by decide) hhandle]
    · simp [Download.exercise, exerciseLocationSpec, hget, ht]
      rw [filepathJoin_segment cfg.workspace "teams" tslug hws (by decide) ht,
        filepathJoin_segment (cfg.workspace ++ "/" ++ "teams" ++ "/" ++ tslug)
          "users" handle
          (append_ne_empty_of_left tslug (append_ne_empty_of_left "/"
            (append_ne_empty_of_left "teams" (append_ne_empty_of_left "/" hws))))
          (by decide) hhandle]
  · by_cases ht : tslug = ""
    · simp [Download.exercise, exerciseLocationSpec, hget, ht]
    · simp [Download.exercise, exerciseLocationSpec, hget, ht]
      rw [filepathJoin_segment cfg.workspace "teams" tslug hws (by decide) ht]

/-- A concrete user configuration used by witnesses. -/
def cfgEx : UserConfig :=
  { token := "abc123", workspace := "workspace", apibaseurl := "http://example.com" }

/-- A concrete download: team "acme", requester false, handle "alice". -/
def downloadEx : Download :=
  { params :=
      { usrCfg := some cfgEx, uuid := "", slug := "two-fer", track := "go", team := "" },
    payload :=
      { Solution :=
          { ID := "sol-1", URL := "http://example.com/solutions/sol-1",
            Team := { Name := "Acme", Slug := "acme" },
            User := { Handle := "alice", IsRequester := false },
            Exercise :=
              { ID := "two-fer", InstructionsURL := "", AutoApprove := false,
                Track := { ID := "go", Language := "Go" } },
            FileDownloadBaseURL := "http://example.com/files",
            Files := [], SubmittedAt := none },
        Error := { Type' := "", Message := "", PossibleTrackIDs := [] } } }

/-- Witness for C2 at team="acme", requester=false, handle="alice":
the resolved root is `workspace/teams/acme/users/alice`. -/
theorem download_exercise_matches_spec_witness :
    downloadEx.exercise =
      exerciseLocationSpec "workspace" "acme" "alice" false "go" "two-fer" ∧
    downloadEx.exercise.Root = "workspace/teams/acme/users/alice" := by
  constructor
  · exact download_exercise_matches_spec downloadEx cfgEx rfl
      (by decide) (fun _ => by decide)
  · decide

/-- Evaluation of the required-config loop over its actual key list. -/
lemma requiredCfgsCheck_all (cfg : UserConfig) :
    requiredCfgsCheck cfg ["token", "workspace", "apibaseurl"] =
      if cfg.token = "" then Except.error "missing required UserViperConfig 'token'"
      else if cfg.workspace = "" then
        Except.error "missing required UserViperConfig 'workspace'"
      else if cfg.apibaseurl = "" then
        Except.error "missing required UserViperConfig 'apibaseurl'"
      else Except.ok () := by
  by_cases h1 : cfg.token = "" <;> by_cases h2 : cfg.workspace = "" <;>
    by_cases h3 : cfg.apibaseurl = "" <;>
    simp [requiredCfgsCheck, UserConfig.getString, h1, h2, h3]

/-- When the identifier guard passes, `validate` is exactly the
required-config loop. -/
lemma validate_identifier_ok (d : DownloadParams) (cfg : UserConfig)
    (hcfg : d.usrCfg = some cfg)
    (hid : (d.slug ≠ "" ∧ d.uuid = "") ∨ (d.slug = "" ∧ d.uuid ≠ "")) :
    d.validate = requiredCfgsCheck cfg ["token", "workspace", "apibaseurl"] := by
  unfold DownloadParams.validate
  rw [if_neg ((identifier_guard_iff d.slug d.uuid).mpr hid), hcfg]

/-- A configuration whose `token` is empty. -/
def cfgNoToken : UserConfig :=
  { token := "", workspace := "/home/username", apibaseurl := "http://example.com" }

/-- Flags supplying only `--exercise bogus-exercise`. -/
def flagsSlugOnly : FlagSet :=
  fun key => if key = "exercise" then "bogus-exercise" else ""

/-- C8 counterexample: constructing params from flags with a valid exercise
slug but an empty `token` fails with the generic identifier message, not
with an error naming the missing `token` key — the flags path is not
uniform with the exercise path. -/
theorem missing_config_flags_counterexample :
    NewDownloadParamsFromFlags (some cfgNoToken) flagsSlugOnly =
      Except.error "need an --exercise name or a solution --uuid" ∧
    NewDownloadParamsFromFlags (some cfgNoToken) flagsSlugOnly ≠
      Except.error "missing required UserViperConfig 'token'" := by
  refine ⟨rfl, ?_⟩
  intro h
  have h1 : NewDownloadParamsFromFlags (some cfgNoToken) flagsSlugOnly =
      Except.error "need an --exercise name or a solution --uuid" := rfl
  rw [h1] at h
  injection h with h2
  exact absurd h2 (by decide)

/-- C8 amended: when the identifier check passes and some required config
key is empty, `validate` fails naming the first empty key in order `token`,
`workspace`, `apibaseurl`; the exercise construction path surfaces that
error verbatim, but the flags construction path replaces any validation
failure with the generic message "need an --exercise name or a solution
--uuid". -/
theorem missing_config_by_path (d : DownloadParams) (cfg : UserConfig)
    (ex : Exercise) (flags : FlagSet)
    (hcfg : d.usrCfg = some cfg)
    (hid : (d.slug ≠ "" ∧ d.uuid = "") ∨ (d.slug = "" ∧ d.uuid ≠ ""))
    (hex : ex.Slug ≠ "")
    (hfl : (flags "exercise" ≠ "" ∧ flags "uuid" = "") ∨
           (flags "exercise" = "" ∧ flags "uuid" ≠ ""))
    (hkey : cfg.token = "" ∨ cfg.workspace = "" ∨ cfg.apibaseurl = "") :
    (∃ k, k ∈ ["token", "workspace", "apibaseurl"] ∧ cfg.getString k = "" ∧
      d.validate = Except.error ("missing required UserViperConfig '" ++ k ++ "'")) ∧
    (∃ k, k ∈ ["token", "workspace", "apibaseurl"] ∧ cfg.getString k = "" ∧
      NewDownloadParamsFromExercise (some cfg) ex =
        Except.error ("missing required UserViperConfig '" ++ k ++ "'")) ∧
    NewDownloadParamsFromFlags (some cfg) flags =
      Except.error "need an --exercise name or a solution --uuid" := by
  have hkeyres : ∃ k, k ∈ ["token", "workspace", "apibaseurl"] ∧
      cfg.getString k = "" ∧
      requiredCfgsCheck cfg ["token", "workspace", "apibaseurl"] =
        Except.error ("missing required UserViperConfig '" ++ k ++ "'") := by
    by_cases h1 : cfg.token = ""
    · exact ⟨"token", by simp, by simp [UserConfig.getString_token, h1],
        by rw [requiredCfgsCheck_all]; simp [h1]⟩
    · by_cases h2 : cfg.workspace = ""
      · exact ⟨"workspace", by simp, by simp [UserConfig.getString_workspace, h2],
          by rw [requiredCfgsCheck_all]; simp [h1, h2]⟩
      · have h3 : cfg.apibaseurl = "" := by tauto
        exact ⟨"apibaseurl", by simp, by simp [UserConfig.getString_apibaseurl, h3],
          by rw [requiredCfgsCheck_all]; simp [h1, h2, h3]⟩
  obtain ⟨k, hmem, hk, herr⟩ := hkeyres
  refine ⟨⟨k, hmem, hk, ?_⟩, ⟨k, hmem, hk, ?_⟩, ?_⟩
  · rw [validate_identifier_ok d cfg hcfg hid]
    exact herr
  · unfold NewDownloadParamsFromExercise
    dsimp only
    rw [validate_identifier_ok
      (DownloadParams.mk (some cfg) "" ex.Slug ex.Track "") cfg rfl
      (Or.inl ⟨hex, rfl⟩), herr]
  · unfold NewDownloadParamsFromFlags
    dsimp only
    rw [validate_identifier_ok
      (DownloadParams.mk (some cfg) (flags "uuid") (flags "exercise") "" "") cfg rfl
      hfl, herr]

/-- Params with slug "bogus-exercise" against the token-less config. -/
def paramsNoToken : DownloadParams :=
  { usrCfg := some cfgNoToken, uuid := "", slug := "bogus-exercise",
    track := "", team := "" }

/-- A local exercise with slug "bogus-exercise". -/
def exerciseC8 : Exercise := { Root := "", Track := "bogus-track", Slug := "bogus-exercise" }

/-- Witness for the amended C8 at a config with empty token. -/
theorem missing_config_by_path_witness :
    (∃ k, k ∈ ["token", "workspace", "apibaseurl"] ∧ cfgNoToken.getString k = "" ∧
      paramsNoToken.validate =
        Except.error ("missing required UserViperConfig '" ++ k ++ "'")) ∧
    (∃ k, k ∈ ["token", "workspace", "apibaseurl"] ∧ cfgNoToken.getString k = "" ∧
      NewDownloadParamsFromExercise (some cfgNoToken) exerciseC8 =
        Except.error ("missing required UserViperConfig '" ++ k ++ "'")) ∧
    NewDownloadParamsFromFlags (some cfgNoToken) flagsSlugOnly =
      Except.error "need an --exercise name or a solution --uuid" :=
  missing_config_by_path paramsNoToken cfgNoToken exerciseC8 flagsSlugOnly rfl
    (Or.inl ⟨by decide, rfl⟩) (by decide) (Or.inl ⟨by decide, rfl⟩) (Or.inl rfl)

/-- Greedy `\d*` of the sanitizer pattern: consumes leading ASCII digits;
since `/` is not a digit, backtracking can only stop at the first non-digit. -/
def dropDigits : List Char → List Char
  | [] => []
  | c :: rest => if c.isDigit then dropDigits rest else c :: rest

/-- The tail `[/\\]<slug>-\d*/` of the sanitizer pattern, tried at the start
of `rest`; returns the suffix after the matched portion. The separator
before the slug accepts `/` or `\`, but the final separator after the
digits is the literal `/` only. -/
def tailMatch (slug : List Char) (rest : List Char) : Option (List Char) :=
  match rest with
  | [] => none
  | sep :: r1 =>
    if (sep = '/' ∨ sep = '\\') ∧ slug.isPrefixOf r1 then
      match r1.drop slug.length with
      | '-' :: r3 =>
        match dropDigits r3 with
        | '/' :: r5 => some r5
        | _ => none
      | _ => none
    else none

/-- One backtracking attempt of `\A.*[/\\]<slug>-\d*/` with `.*` consuming
exactly `p` characters: `.` excludes newlines, and the tail must match at
position `p`. -/
def matchAtPos (slug s : List Char) (p : Nat) : Option (List Char) :=
  if (s.take p).contains '\n' then none
  else tailMatch slug (s.drop p)

/-- Go's regexp prefers the backtracking-first match: `.*` is greedy, so
positions are tried from the largest down to `0`. -/
def searchFrom (slug s : List Char) : Nat → Option (List Char)
  | 0 => matchAtPos slug s 0
  | p + 1 =>
    match matchAtPos slug s (p + 1) with
    | some r => some r
    | none => searchFrom slug s p

/-- `rgxNumericSuffix.MatchString`/`ReplaceAll` with empty replacement for
the pattern `\A.*[/\\]<slug>-\d*/`: anchored at the text start, so at most
one match exists and a successful match strips the matched prefix. Returns
`none` when the pattern does not match. -/
def rgxNumericSuffixStrip (slug file : String) : Option String :=
  match searchFrom slug.data file.data file.data.length with
  | some r => some (String.mk r)
  | none => none

/-- `strings.Replace(file, "\\", "/", -1)`: every backslash becomes `/`. -/
def replaceBackslashes (s : String) : String :=
  String.mk (s.data.map fun c => if c = '\\' then '/' else c)

/-- `filepath.FromSlash`, the identity on a forward-slash platform. -/
def filepathFromSlash (s : String) : String := s

/-- `DownloadWriter.sanitizeLegacyFilepath` (service/download.go lines
94-104): strip the legacy numeric-suffix prefix if the pattern matches,
then replace backslashes, then convert to the native representation. -/
def sanitizeLegacyFilepath (file slug : String) : String :=
  let stripped :=
    match rgxNumericSuffixStrip slug file with
    | some r => r
    | none => file
  filepathFromSlash (replaceBackslashes stripped)

/-- C4 counterexample: on the claim's all-backslash input
`\full\path\with\numeric-suffix\track\slug-12345\subdir\numeric.txt` with
slug `slug`, the pattern (whose final separator is the literal `/`) does
not match, so nothing is stripped and the result is the slash-converted
full path, not `subdir/numeric.txt`. -/
theorem sanitize_backslash_counterexample :
    sanitizeLegacyFilepath
        "\\full\\path\\with\\numeric-suffix\\track\\slug-12345\\subdir\\numeric.txt"
        "slug" =
      "/full/path/with/numeric-suffix/track/slug-12345/subdir/numeric.txt" ∧
    sanitizeLegacyFilepath
        "\\full\\path\\with\\numeric-suffix\\track\\slug-12345\\subdir\\numeric.txt"
        "slug" ≠ "subdir/numeric.txt" := by
  constructor
  · decide
  · decide

/-- C4 amended: the sanitizer strips a start-anchored prefix ending in
`<sep><slug>-<digits>/` where `<sep>` may be `/` or `\` but the separator
after the digits must be the forward slash `/`; then it replaces every
backslash with `/`, then converts to the native representation, in that
order. The claim's all-backslash input therefore does not match and yields
the slash-converted full path; its forward-slash variant yields
`subdir/numeric.txt`. -/
theorem sanitize_legacy_filepath_spec :
    sanitizeLegacyFilepath
        "/full/path/with/numeric-suffix/track/slug-12345/subdir/numeric.txt"
        "slug" = "subdir/numeric.txt" ∧
    sanitizeLegacyFilepath "\\path\\slug-12/sub/f.txt" "slug" = "sub/f.txt" ∧
    sanitizeLegacyFilepath "/a/slug-1/sub\\f.txt" "slug" = "sub/f.txt" ∧
    sanitizeLegacyFilepath
        "\\full\\path\\with\\numeric-suffix\\track\\slug-12345\\subdir\\numeric.txt"
        "slug" =
      "/full/path/with/numeric-suffix/track/slug-12345/subdir/numeric.txt" := by
  refine ⟨by decide, by decide, by decide, by decide⟩

lemma replaceBackslashes_id (s : String) (h : ∀ c ∈ s.data, c ≠ '\\') :
    replaceBackslashes s = s := by
  apply String.ext
  show s.data.map _ = s.data
  conv_rhs => rw [← List.map_id s.data]
  refine List.map_congr_left ?_
  intro c hc
  simp [h c hc]

/-- C9: on an already-clean forward-slash path — no backslash and no prefix
matching the numeric-suffix pattern — the sanitizer is the identity, and
hence applying it twice equals applying it once. -/
theorem sanitize_clean_identity (file slug : String)
    (hnb : ∀ c ∈ file.data, c ≠ '\\')
    (hnm : rgxNumericSuffixStrip slug file = none) :
    sanitizeLegacyFilepath file slug = file ∧
    sanitizeLegacyFilepath (sanitizeLegacyFilepath file slug) slug =
      sanitizeLegacyFilepath file slug := by
  have h1 : sanitizeLegacyFilepath file slug = file := by
    unfold sanitizeLegacyFilepath
    rw [hnm]
    exact replaceBackslashes_id file hnb
  exact ⟨h1, by rw [h1, h1]⟩

/-- Witness for C9 on the clean path `subdir/numeric.txt`. -/
theorem sanitize_clean_identity_witness :
    sanitizeLegacyFilepath "subdir/numeric.txt" "slug" = "subdir/numeric.txt" ∧
    sanitizeLegacyFilepath (sanitizeLegacyFilepath "subdir/numeric.txt" "slug")
        "slug" =
      sanitizeLegacyFilepath "subdir/numeric.txt" "slug" :=
  sanitize_clean_identity "subdir/numeric.txt" "slug" (by decide) (by decide)

/-- The solution-record HTTP response abstracted to what `NewDownload`
inspects: status code and the result of JSON-decoding the body into a
`downloadPayload` (an `Except` carrying the decoder's error text). -/
structure APIResponse where
  StatusCode : Nat
  decodedBody : Except String downloadPayload

/-- The response-handling part of `NewDownload` (service/download.go lines
206-222): decode the body first, then branch on 401, then on any other
non-200 status (with the `track_ambiguous` special case), else construct
the `Download`. `siteURL` stands for the external `config.InferSiteURL`
result. -/
def processResponse (params : DownloadParams) (siteURL : String)
    (res : APIResponse) : Except String Download :=
  match res.decodedBody with
  | Except.error e => Except.error ("unable to parse API response - " ++ e)
  | Except.ok payload =>
    if res.StatusCode = 401 then
      Except.error ("unauthorized request. Please run the configure command. You can find your API token at "
        ++ siteURL ++ "/my/settings")
    else if res.StatusCode ≠ 200 then
      if payload.Error.Type' = "track_ambiguous" then
        Except.error (payload.Error.Message ++ ": " ++
          String.intercalate ", " payload.Error.PossibleTrackIDs)
      else Except.error payload.Error.Message
    else Except.ok { params := params, payload := payload }

/-- `NewDownload` (service/download.go lines 184-223): validate the params,
then classify the response (request construction and transport are the
external API-client collaborator). -/
def NewDownload (params : DownloadParams) (siteURL : String) (res : APIResponse) :
    Except String Download :=
  match params.validate with
  | Except.error e => Except.error e
  | Except.ok _ => processResponse params siteURL res

/-- C3: whatever the status code, the body is decoded first, and a decode
failure makes the fetch fail with the parse error wrapping the cause,
before any status-code branching. -/
theorem processResponse_decode_before_status (params : DownloadParams)
    (siteURL : String) (res : APIResponse) (e : String)
    (hdec : res.decodedBody = Except.error e) :
    processResponse params siteURL res =
      Except.error ("unable to parse API response - " ++ e) := by
  unfold processResponse
  rw [hdec]

/-- Valid params shared by the fetch witnesses. -/
def paramsValid : DownloadParams :=
  { usrCfg := some cfgEx, uuid := "", slug := "bogus-exercise",
    track := "bogus-track", team := "" }

/-- A 401 response whose body fails to decode. -/
def resBadBody : APIResponse :=
  { StatusCode := 401, decodedBody := Except.error "invalid character" }

/-- Witness for C3: even on a 401 response the decode failure wins. -/
theorem processResponse_decode_before_status_witness :
    processResponse paramsValid "http://example.com" resBadBody =
      Except.error "unable to parse API response - invalid character" :=
  processResponse_decode_before_status paramsValid "http://example.com"
    resBadBody "invalid character" rfl

/-- C6: on a status that is neither 200 nor 401, the fetch fails with the
message `"{error.message}: {comma-joined possible_track_ids}"` when the
decoded error type is the literal `track_ambiguous`, and with the bare
`error.message` otherwise. -/
theorem processResponse_api_error (params : DownloadParams) (siteURL : String)
    (res : APIResponse) (payload : downloadPayload)
    (hdec : res.decodedBody = Except.ok payload)
    (h401 : res.StatusCode ≠ 401) (h200 : res.StatusCode ≠ 200) :
    processResponse params siteURL res =
      Except.error
        (if payload.Error.Type' = "track_ambiguous" then
          payload.Error.Message ++ ": " ++
            String.intercalate ", " payload.Error.PossibleTrackIDs
        else payload.Error.Message) := by
  unfold processResponse
  rw [hdec]
  dsimp only
  rw [if_neg h401, if_pos h200]
  split <;> rfl

/-- A 400 response decoding to a `track_ambiguous` error with message "m"
and candidate tracks ["a", "b"]. -/
def resTrackAmbiguous : APIResponse :=
  { StatusCode := 400,
    decodedBody := Except.ok
      { Solution :=
          { ID := "", URL := "", Team := { Name := "", Slug := "" },
            User := { Handle := "", IsRequester := true },
            Exercise :=
              { ID := "", InstructionsURL := "", AutoApprove := false,
                Track := { ID := "", Language := "" } },
            FileDownloadBaseURL := "", Files := [], SubmittedAt := none },
        Error := { Type' := "track_ambiguous", Message := "m",
                   PossibleTrackIDs := ["a", "b"] } } }

/-- Witness for C6: type `track_ambiguous`, message "m",
possible_track_ids ["a","b"] yields exactly "m: a, b". -/
theorem processResponse_api_error_witness :
    processResponse paramsValid "http://example.com" resTrackAmbiguous =
      Except.error "m: a, b" := by
  have h := processResponse_api_error paramsValid "http://example.com"
    resTrackAmbiguous
    { Solution :=
        { ID := "", URL := "", Team := { Name := "", Slug := "" },
          User := { Handle := "", IsRequester := true },
          Exercise :=
            { ID := "", InstructionsURL := "", AutoApprove := false,
              Track := { ID := "", Language := "" } },
          FileDownloadBaseURL := "", Files := [], SubmittedAt := none },
      Error := { Type' := "track_ambiguous", Message := "m",
                 PossibleTrackIDs := ["a", "b"] } }
    rfl (by decide) (by decide)
  exact h

/-- `Download.validate` (service/download.go lines 311-319): solution id
must be non-empty and the embedded error message empty (`d == nil` cannot
arise in the model). -/
def Download.validate (d : Download) : Except String Unit :=
  if d.payload.Solution.ID = "" then Except.error "Download is empty"
  else if d.payload.Error.Message ≠ "" then Except.error d.payload.Error.Message
  else Except.ok ()

/-- `DownloadWriter` (service/download.go lines 31-35); the embedded
`fileWriter`/`downloader` interfaces are nil right after construction, so
only the `Download` is carried. -/
structure DownloadWriter where
  download : Download

/-- `NewDownloadWriter` (service/download.go lines 38-43): runs the final
validation pass before handing out a writer. -/
def NewDownloadWriter (download : Download) : Except String DownloadWriter :=
  match download.validate with
  | Except.error e => Except.error e
  | Except.ok _ => Except.ok { download := download }

/-- The fetch pipeline as `cmd/download.go`'s `newDownloadCmdContext`
composes it: `NewDownload` followed by `NewDownloadWriter`. -/
def fetchDownloadWriter (params : DownloadParams) (siteURL : String)
    (res : APIResponse) : Except String DownloadWriter :=
  match NewDownload params siteURL res with
  | Except.error e => Except.error e
  | Except.ok d => NewDownloadWriter d

/-- C7: on a 200 response, the fetched `Download` reaches the caller only
after the final validation pass — solution id non-empty and embedded error
message empty — succeeds; otherwise the pipeline fails with the
empty-or-errored-download error. -/
theorem fetch_returns_only_validated (params : DownloadParams)
    (siteURL : String) (res : APIResponse) (payload : downloadPayload)
    (hval : params.validate = Except.ok ())
    (hdec : res.decodedBody = Except.ok payload)
    (h200 : res.StatusCode = 200) :
    (payload.Solution.ID ≠ "" ∧ payload.Error.Message = "" →
      fetchDownloadWriter params siteURL res =
        Except.ok { download := { params := params, payload := payload } }) ∧
    (payload.Solution.ID = "" →
      fetchDownloadWriter params siteURL res =
        Except.error "Download is empty") ∧
    (payload.Solution.ID ≠ "" → payload.Error.Message ≠ "" →
      fetchDownloadWriter params siteURL res =
        Except.error payload.Error.Message) := by
  have hdl : NewDownload params siteURL res =
      Except.ok { params := params, payload := payload } := by
    unfold NewDownload
    rw [hval]
    unfold processResponse
    rw [hdec]
    dsimp only
    rw [h200]
    rfl
  have hfetch : fetchDownloadWriter params siteURL res =
      NewDownloadWriter { params := params, payload := payload } := by
    unfold fetchDownloadWriter
    rw [hdl]
  refine ⟨?_, ?_, ?_⟩
  · rintro ⟨hid, hmsg⟩
    rw [hfetch]
    unfold NewDownloadWriter Download.validate
    rw [if_neg hid]
    simp [hmsg]
  · intro hid
    rw [hfetch]
    unfold NewDownloadWriter Download.validate
    rw [if_pos hid]
  · intro hid hmsg
    rw [hfetch]
    unfold NewDownloadWriter Download.validate
    rw [if_neg hid, if_pos hmsg]

/-- A well-formed 200 response around `downloadEx`'s payload. -/
def resOkPayload : APIResponse :=
  { StatusCode := 200, decodedBody := Except.ok downloadEx.payload }

/-- Witness for C7: a 200 response with non-empty solution id and empty
error message yields the writer around the constructed download. -/
theorem fetch_returns_only_validated_witness :
    fetchDownloadWriter paramsValid "http://example.com" resOkPayload =
      Except.ok (DownloadWriter.mk (Download.mk paramsValid downloadEx.payload)) :=
  (fetch_returns_only_validated paramsValid "http://example.com" resOkPayload
    downloadEx.payload rfl rfl rfl).1 ⟨by decide, rfl⟩

/-- A per-file HTTP response abstracted to what `requestFile` inspects:
status code, the `Content-Length` header value (`""` when absent), and the
body bytes. -/
structure FileResponse where
  StatusCode : Nat
  ContentLength : String
  Body : String
deriving Repr, DecidableEq

/-- The external API client as `requestFile` consumes it: whether
`netURL.ParseRequestURI` accepts the URL, and the result of performing the
authenticated GET. -/
structure FileClient where
  parseRequestURI : String → Bool
  doRequest : String → Except String FileResponse

/-- `Download.requestFile` (service/download.go lines 249-280): an empty
filename is an error; the URL is the literal concatenation of
`FileDownloadBaseURL` and the filename and must parse; a non-200 status or
a `Content-Length` of exactly "0" is swallowed as `none`; otherwise the
response is returned. -/
def Download.requestFile (d : Download) (client : FileClient)
    (filename : String) : Except String (Option FileResponse) :=
  if filename = "" then Except.error "filename is empty"
  else
    let unparsedURL := d.payload.Solution.FileDownloadBaseURL ++ filename
    if !client.parseRequestURI unparsedURL then Except.error "invalid URL"
    else
      match client.doRequest unparsedURL with
      | Except.error e => Except.error e
      | Except.ok res =>
        if res.StatusCode ≠ 200 then Except.ok none
        else if res.ContentLength = "0" then Except.ok none
        else Except.ok (some res)

/-- Modelled from the spec: `workspace.Exercise.MetadataDir` (external
`workspace` package, absent from the sources) — per §8 the metadata
directory nests track and slug under the exercise root. -/
def Exercise.MetadataDir (e : Exercise) : String :=
  filepathJoin (filepathJoin e.Root e.Track) e.Slug

/-- The `for _, filename := range d.Solution.Files` loop of
`DownloadWriter.WriteSolutionFiles` (service/download.go lines 56-89): a
request error aborts, a `nil` response is skipped, otherwise the body is
written at the sanitized path joined under the metadata directory. The
filesystem is the ordered list of (path, content) creations; `MkdirAll`,
`Create` and `io.Copy` I/O failures are outside the modelled claims. -/
def writeSolutionFilesLoop (client : FileClient) (d : Download) :
    List String → List (String × String) → Except String (List (String × String))
  | [], fs => Except.ok fs
  | filename :: rest, fs =>
    match d.requestFile client filename with
    | Except.error e => Except.error e
    | Except.ok none => writeSolutionFilesLoop client d rest fs
    | Except.ok (some res) =>
      let sanitizedPath := sanitizeLegacyFilepath filename d.exercise.Slug
      let fileWritePath := filepathJoin d.exercise.MetadataDir sanitizedPath
      writeSolutionFilesLoop client d rest (fs ++ [(fileWritePath, res.Body)])

/-- `DownloadWriter.WriteSolutionFiles` (service/download.go lines 56-89). -/
def DownloadWriter.WriteSolutionFiles (w : DownloadWriter) (client : FileClient)
    (fs : List (String × String)) : Except String (List (String × String)) :=
  writeSolutionFilesLoop client w.download w.download.payload.Solution.Files fs

/-- C5: a listed file whose response status is not 200 or whose
`Content-Length` header is exactly "0" is skipped silently — no error, no
write — and the loop continues with the next file; any other successfully
fetched file is written at its sanitized destination path with the fetched
content. -/
theorem writeSolutionFiles_skip_or_write (client : FileClient) (d : Download)
    (filename : String) (rest : List String) (fs : List (String × String))
    (res : FileResponse) (hname : filename ≠ "")
    (hparse : client.parseRequestURI
      (d.payload.Solution.FileDownloadBaseURL ++ filename) = true)
    (hdo : client.doRequest (d.payload.Solution.FileDownloadBaseURL ++ filename) =
      Except.ok res) :
    (res.StatusCode ≠ 200 ∨ res.ContentLength = "0" →
      writeSolutionFilesLoop client d (filename :: rest) fs =
        writeSolutionFilesLoop client d rest fs) ∧
    (res.StatusCode = 200 → res.ContentLength ≠ "0" →
      writeSolutionFilesLoop client d (filename :: rest) fs =
        writeSolutionFilesLoop client d rest
          (fs ++ [(filepathJoin d.exercise.MetadataDir
            (sanitizeLegacyFilepath filename d.exercise.Slug), res.Body)])) := by
  have hreq : ∀ r, d.requestFile client filename = r →
      writeSolutionFilesLoop client d (filename :: rest) fs =
        match r with
        | Except.error e => Except.error e
        | Except.ok none => writeSolutionFilesLoop client d rest fs
        | Except.ok (some res) => writeSolutionFilesLoop client d rest
            (fs ++ [(filepathJoin d.exercise.MetadataDir
              (sanitizeLegacyFilepath filename d.exercise.Slug), res.Body)]) := by
    intro r hr
    rw [writeSolutionFilesLoop, hr]
  constructor
  · intro hskip
    refine hreq (Except.ok none) ?_
    unfold Download.requestFile
    rw [if_neg hname]
    dsimp only
    simp only [hparse, Bool.not_true, Bool.false_eq_true, if_false]
    rw [hdo]
    dsimp only
    rcases hskip with h | h
    · rw [if_pos h]
    · by_cases h2 : res.StatusCode ≠ 200
      · rw [if_pos h2]
      · rw [if_neg h2, if_pos h]
  · intro h200 hcl
    refine hreq (Except.ok (some res)) ?_
    unfold Download.requestFile
    rw [if_neg hname]
    dsimp only
    simp only [hparse, Bool.not_true, Bool.false_eq_true, if_false]
    rw [hdo]
    dsimp only
    rw [if_neg (by simp [h200]), if_neg hcl]

/-- Reaching an empty filename aborts the write loop: whenever every entry
before it is processed without a request error (skipped or written), the
loop fails with "filename is empty", whatever the accumulated writes and
whatever follows in the list. -/
lemma writeSolutionFilesLoop_empty_entry (client : FileClient) (d : Download)
    (pre : List String) :
    ∀ (rest : List String) (fs : List (String × String)),
    (∀ f ∈ pre, ∃ r, d.requestFile client f = Except.ok r) →
    writeSolutionFilesLoop client d (pre ++ "" :: rest) fs =
      Except.error "filename is empty" := by
  induction pre with
  | nil =>
    intro rest fs _
    rw [List.nil_append, writeSolutionFilesLoop]
    rw [Download.requestFile, if_pos rfl]
  | cons f pre ih =>
    intro rest fs hpre
    obtain ⟨r, hr⟩ := hpre f (List.mem_cons_self f pre)
    rw [List.cons_append, writeSolutionFilesLoop, hr]
    cases r with
    | none => exact ih rest fs (fun g hg => hpre g (List.mem_cons_of_mem f hg))
    | some res => exact ih rest _ (fun g hg => hpre g (List.mem_cons_of_mem f hg))

/-- C10: wherever an empty-string filename occurs in the solution's file
list, the per-file request for it fails with an error instead of being
silently skipped, and once the loop reaches that entry (the entries before
it having been skipped or written, not errored) `WriteSolutionFiles`
aborts there with that error — the result is the same for every tail, so
no subsequent file is fetched or written. -/
theorem writeSolutionFiles_empty_filename (w : DownloadWriter)
    (client : FileClient) (pre rest : List String)
    (fs : List (String × String))
    (hfiles : w.download.payload.Solution.Files = pre ++ "" :: rest)
    (hpre : ∀ f ∈ pre, ∃ r, w.download.requestFile client f = Except.ok r) :
    w.download.requestFile client "" = Except.error "filename is empty" ∧
    w.WriteSolutionFiles client fs = Except.error "filename is empty" ∧
    ∀ rest' : List String,
      writeSolutionFilesLoop client w.download (pre ++ "" :: rest') fs =
        Except.error "filename is empty" := by
  refine ⟨?_, ?_, ?_⟩
  · rw [Download.requestFile, if_pos rfl]
  · rw [DownloadWriter.WriteSolutionFiles, hfiles]
    exact writeSolutionFilesLoop_empty_entry client w.download pre rest fs hpre
  · intro rest'
    exact writeSolutionFilesLoop_empty_entry client w.download pre rest' fs hpre

/-- A file client where every URL parses: fetching the `empty` file yields a
zero-length response, everything else a 200 with content. -/
def fileClientEx : FileClient :=
  { parseRequestURI := fun _ => true,
    doRequest := fun url =>
      if url = "http://example.com/filesempty" then
        Except.ok { StatusCode := 200, ContentLength := "0", Body := "" }
      else
        Except.ok { StatusCode := 200, ContentLength := "10", Body := "contents" } }

/-- Witness for C5: the zero-length `empty` entry is skipped with no write,
and `file-1.txt` is written at its sanitized destination with its content. -/
theorem writeSolutionFiles_skip_or_write_witness :
    writeSolutionFilesLoop fileClientEx downloadEx ("empty" :: ["file-1.txt"]) [] =
      writeSolutionFilesLoop fileClientEx downloadEx ["file-1.txt"] [] ∧
    writeSolutionFilesLoop fileClientEx downloadEx ["file-1.txt"] [] =
      writeSolutionFilesLoop fileClientEx downloadEx []
        ([] ++ [(filepathJoin downloadEx.exercise.MetadataDir
          (sanitizeLegacyFilepath "file-1.txt" downloadEx.exercise.Slug),
          "contents")]) := by
  constructor
  · exact (writeSolutionFiles_skip_or_write fileClientEx downloadEx "empty"
      ["file-1.txt"] [] { StatusCode := 200, ContentLength := "0", Body := "" }
      (by decide) rfl rfl).1 (Or.inr rfl)
  · exact (writeSolutionFiles_skip_or_write fileClientEx downloadEx "file-1.txt"
      [] [] { StatusCode := 200, ContentLength := "10", Body := "contents" }
      (by decide) rfl rfl).2 rfl (by decide)

/-- A writer whose solution lists an empty filename in the middle of the
file list, after a fetchable entry and before another entry. -/
def writerEmptyFilename : DownloadWriter :=
  { download :=
      { params := paramsValid,
        payload :=
          { downloadEx.payload with
            Solution :=
              { downloadEx.payload.Solution with
                Files := ["file-1.txt", "", "other.txt"] } } } }

/-- Witness for C10: with `Files = ["file-1.txt", "", "other.txt"]` the
first entry is processed, then the loop aborts at the mid-list empty
filename with "filename is empty", for every tail. -/
theorem writeSolutionFiles_empty_filename_witness :
    writerEmptyFilename.download.requestFile fileClientEx "" =
      Except.error "filename is empty" ∧
    writerEmptyFilename.WriteSolutionFiles fileClientEx [] =
      Except.error "filename is empty" ∧
    ∀ rest' : List String,
      writeSolutionFilesLoop fileClientEx writerEmptyFilename.download
        (["file-1.txt"] ++ "" :: rest') [] =
        Except.error "filename is empty" :=
  writeSolutionFiles_empty_filename writerEmptyFilename fileClientEx
    ["file-1.txt"] ["other.txt"] [] rfl
    (fun f hf => by
      have hf1 : f = "file-1.txt" := by simpa using hf
      subst hf1
      exact ⟨some { StatusCode := 200, ContentLength := "10", Body := "contents" },
        rfl⟩)
